import Mathlib

/-!
Verification development for the DXF gap-healing pipeline of
`kicad_dxf_tools.py`: segment extraction, gap detection
(`find_close_points`), gap healing (`heal_dxf_gaps`) and the outer
reconstruction entry point (`load_dxf_with_healing`).

Float coordinates are modelled by exact rationals.  The trigonometric
samples used by arc/circle tessellation are abstracted by two function
parameters `cosd sind : ℚ → ℚ` (degree-based cosine/sine, absorbing the
source's `math.radians` conversion); statements that need the points to
lie exactly on the circle assume the Pythagorean identity for them.
The external shapely geometry calls (`buffer`/`unary_union`/`boundary`,
`polygonize`, `linemerge`) are abstracted by oracle parameters that
record, for the inputs actually passed, either the returned value or
that the call raised an exception; everything the Python file itself
computes is modelled concretely.
-/

namespace KicadDxf

/-- A planar point; the source's float coordinate pairs modelled with exact
rationals. -/
abbrev Point : Type := ℚ × ℚ

/-- A straight segment, the `(start, end)` pairs collected in the source's
`segments` list. -/
abbrev Seg : Type := Point × Point

/-- Consecutive-pair chords of a point list: the source idiom
`zip(points, points[1:])`. -/
def chords (pts : List Point) : List Seg := pts.zip pts.tail

/-- A DXF modelspace entity, restricted to the shapes the pipeline inspects.
`lwpolyline` carries the `closed` flag; `polyline` is the old-style
POLYLINE with its `is_closed` flag; `other` stands for any entity type the
source does not recognize. -/
inductive DxfEntity : Type
  | line (p q : Point)
  | arc (center : Point) (radius startAngle endAngle : ℚ)
  | circle (center : Point) (radius : ℚ)
  | lwpolyline (points : List Point) (closed : Bool)
  | polyline (points : List Point) (isClosed : Bool)
  | other
deriving DecidableEq, Repr

/-- The sampled point at `angle` degrees on a circle: models
`(center[0] + radius*cos(radians(angle)), center[1] + radius*sin(radians(angle)))`
with `cosd`/`sind` standing for the library cosine/sine on degrees. -/
def samplePoint (cosd sind : ℚ → ℚ) (center : Point) (radius angle : ℚ) : Point :=
  (center.1 + radius * cosd angle, center.2 + radius * sind angle)

/-- Normalized arc end angle: models the source's
`if end_angle < start_angle: end_angle += 360`. -/
def normEnd (startAngle endAngle : ℚ) : ℚ :=
  if endAngle < startAngle then endAngle + 360 else endAngle

/-- The 25 arc sample points `arc_pts`: for i in range(24 + 1), the sample
at `start_angle + i * (end_angle - start_angle) / 24` after normalization
(the source's `segments_count` is 24). -/
def arcPts (cosd sind : ℚ → ℚ) (c : Point) (r sa ea : ℚ) : List Point :=
  (List.range 25).map fun i : ℕ =>
    samplePoint cosd sind c r (sa + (i : ℚ) * ((normEnd sa ea - sa) / 24))

/-- The 36 circle sample points `circle_pts`: for i in range(36), the
sample at `i * (360 / 36)` degrees (the source's `segments_count` is 36
and `angle_step` is `360 / 36`). -/
def circlePts (cosd sind : ℚ → ℚ) (c : Point) (r : ℚ) : List Point :=
  (List.range 36).map fun i : ℕ => samplePoint cosd sind c r ((i : ℚ) * (360 / 36))

/-- Segments contributed by one entity, translated from the per-entity
branches of `extract_segments_from_dxf` (lines 672-756 of the source):
LINE yields its single segment; ARC samples 25 points at equal steps of the
normalized sweep and chords them; CIRCLE samples 36 points from angle 0 at
steps of `360/36` degrees, appends the first sample again, and chords;
LWPOLYLINE with more than one point chords its points, first appending
`points[0]` whenever the `closed` flag is set; every other entity type
(including old-style POLYLINE) falls through the if/elif chain and
contributes nothing. -/
def extractEntity (cosd sind : ℚ → ℚ) : DxfEntity → List Seg
  | DxfEntity.line p q => [(p, q)]
  | DxfEntity.arc c r sa ea => chords (arcPts cosd sind c r sa ea)
  | DxfEntity.circle c r =>
      chords (circlePts cosd sind c r ++ [(circlePts cosd sind c r).headI])
  | DxfEntity.lwpolyline pts closed =>
      if 1 < pts.length then
        chords (if closed then pts ++ [pts.headI] else pts)
      else []
  | DxfEntity.polyline _ _ => []
  | DxfEntity.other => []

/-- The flat segment list of a modelspace: `extract_segments_from_dxf`
iterates the modelspace in order and extends `segments` with each entity's
contribution. -/
def extract_segments_from_dxf (cosd sind : ℚ → ℚ) (msp : List DxfEntity) : List Seg :=
  msp.flatMap (extractEntity cosd sind)

theorem chords_length (pts : List Point) : (chords pts).length = pts.length - 1 := by
  simp only [chords, List.length_zip, List.length_tail]
  exact min_eq_right (Nat.sub_le _ _)

theorem chords_getElem (pts : List Point) (i : ℕ) (hc : i < (chords pts).length)
    (h2 : i + 1 < pts.length) :
    (chords pts)[i] = (pts[i], pts[i + 1]) := by
  simp only [chords] at hc ⊢
  rw [List.getElem_zip, List.getElem_tail]

theorem chords_mem (pts : List Point) (s : Seg) (h : s ∈ chords pts) :
    s.1 ∈ pts ∧ s.2 ∈ pts := by
  obtain ⟨a, b⟩ := s
  have hz := List.of_mem_zip h
  exact ⟨hz.1, List.mem_of_mem_tail hz.2⟩

/-- Which end of a segment an endpoint record came from; the source tags
records with the strings "start" and "end". -/
inductive EndTag : Type
  | start
  | stop
deriving DecidableEq, Repr

/-- One endpoint record `(point, segment_index, end_type)` as built before
each `find_close_points` call. -/
structure EndpointRec : Type where
  pt : Point
  seg : ℕ
  tag : EndTag
deriving DecidableEq, Repr

/-- The endpoint list built from a segment list: for each index `i` the
source appends `(start, i, "start")` then `(end, i, "end")`. -/
def mkEndpoints (segments : List Seg) : List EndpointRec :=
  segments.enum.flatMap fun p => [⟨p.2.1, p.1, EndTag.start⟩, ⟨p.2.2, p.1, EndTag.stop⟩]

/-- Squared Euclidean distance `(x1-x2)**2 + (y1-y2)**2`; the source takes
its square root before comparing. -/
def sqDist (p q : Point) : ℚ := (p.1 - q.1) * (p.1 - q.1) + (p.2 - q.2) * (p.2 - q.2)

/-- One reported gap `(dist, seg1, end1, seg2, end2, pt1, pt2)`.  The `d2`
field holds the squared distance; the source stores `sqrt d2`, which
determines and is determined by `d2`, so no information is lost. -/
structure GapRecord : Type where
  d2 : ℚ
  seg1 : ℕ
  tag1 : EndTag
  seg2 : ℕ
  tag2 : EndTag
  pt1 : Point
  pt2 : Point
deriving DecidableEq, Repr

/-- The gap record built from an ordered pair of endpoint records. -/
def mkGapRecord (p q : EndpointRec) : GapRecord :=
  ⟨sqDist p.pt q.pt, p.seg, p.tag, q.seg, q.tag, p.pt, q.pt⟩

/-- The body of the inner loop of `find_close_points`: records the pair iff
the segment indices differ and `0 < dist < tolerance` where
`dist = sqrt (sqDist ...)`.  Since `dist ≥ 0` and squaring is strictly
monotone on nonnegatives, `0 < dist ∧ dist < tol` holds exactly when
`0 < d2 ∧ 0 < tol ∧ d2 < tol * tol`, which is the form used here. -/
def gapCheck (tol : ℚ) (p q : EndpointRec) : Option GapRecord :=
  if p.seg ≠ q.seg then
    if 0 < sqDist p.pt q.pt ∧ 0 < tol ∧ sqDist p.pt q.pt < tol * tol then
      some (mkGapRecord p q)
    else none
  else none

/-- The gap detector `find_close_points(points, tolerance)`: the nested
loop `for i ...: for j in points[i+1:]` compares every ordered pair of
records taken at positions `i < j` and collects the qualifying ones in
order. -/
def find_close_points : List EndpointRec → ℚ → List GapRecord
  | [], _ => []
  | p :: rest, tol => rest.filterMap (gapCheck tol p) ++ find_close_points rest tol

/-- An output polygon of shapely's `polygonize`, as far as the source
inspects it: its exterior ring coordinates, its interior (hole) ring
coordinate lists, and the area shapely computes for it (used only as the
sort key `key=lambda p: p.area`). -/
structure HPolygon : Type where
  exterior : List Point
  interiors : List (List Point)
  area : ℚ
deriving DecidableEq, Repr

/-- The DXF entities the source creates from one polygon: a closed
LWPOLYLINE from the exterior coordinates followed by one closed LWPOLYLINE
per interior ring. -/
def polyEntities (p : HPolygon) : List DxfEntity :=
  DxfEntity.lwpolyline p.exterior true :: p.interiors.map fun r => DxfEntity.lwpolyline r true

/-- Stable insertion of a polygon into a descending-by-area list, placing
it behind earlier polygons of equal area. -/
def insertByAreaDesc (p : HPolygon) : List HPolygon → List HPolygon
  | [] => [p]
  | q :: rest => if q.area < p.area then p :: q :: rest else q :: insertByAreaDesc p rest

/-- Stable descending sort by area, modelling
`polygons.sort(key=lambda p: p.area, reverse=True)`. -/
def sortByAreaDesc : List HPolygon → List HPolygon
  | [] => []
  | p :: rest => insertByAreaDesc p (sortByAreaDesc rest)

/-- The preserved original entities gathered by re-reading the source file
at the top of `heal_dxf_gaps`: all CIRCLE entities followed by all closed
LWPOLYLINE entities, or the empty list when the re-read raised (the input
`none`). -/
def preservedOriginals : Option (List DxfEntity) → List DxfEntity
  | some msp =>
      (msp.filter fun e => match e with | DxfEntity.circle _ _ => true | _ => false) ++
      (msp.filter fun e => match e with | DxfEntity.lwpolyline _ closed => closed | _ => false)
  | none => []

/-- The conservative buffer distance `min(tolerance, 0.0005)` computed at
line 812 of the source (`0.0005 = 1/2000` exactly, also as a float). -/
def buffer_distance (tol : ℚ) : ℚ := min tol (1 / 2000)

/-- Outcomes of the external shapely calls made by `heal_dxf_gaps`, for the
buffer distance and segment list actually passed.  `bufferUnionBoundary`
stands for `lines → buffer → unary_union → .boundary` (lines 806-819,
outside the `try`); `polygonsOf` stands for the boundary inspection and
`polygonize` calls inside the `try` (lines 824-841), yielding the final
`polygons` list.  An `Except.error` value records that the corresponding
call raised an exception. -/
structure ShapelyOracle : Type where
  bufferUnionBoundary : ℚ → List Seg → Except Unit Unit
  polygonsOf : ℚ → List Seg → Except Unit (List HPolygon)

/-- The gap healer `heal_dxf_gaps(segments)`, translated from lines
770-878 of the source.  `readBack` is the outcome of re-reading the DXF
file for preservation (`none` when that read raised); `tol` is the value
of `self.gap_tolerance`.  The result is `Except.error ()` when an uncaught
exception escapes the function: only `polygonsOf` errors are caught (the
`except` at line 872); a `bufferUnionBoundary` error propagates because
lines 806-819 sit outside the `try`.  The threshold comparison models
`len(healed_entities) < len(original_entities) * 0.5` exactly. -/
def heal_dxf_gaps (oracle : ShapelyOracle) (readBack : Option (List DxfEntity))
    (tol : ℚ) (segments : List Seg) : Except Unit (List DxfEntity × ℕ) :=
  if segments = [] then Except.ok ([], 0)
  else
    let original_entities := preservedOriginals readBack
    let gaps := find_close_points (mkEndpoints segments) tol
    if gaps.length = 0 then Except.ok (original_entities, 0)
    else
      match oracle.bufferUnionBoundary (buffer_distance tol) segments with
      | Except.error e => Except.error e
      | Except.ok _ =>
        match oracle.polygonsOf (buffer_distance tol) segments with
        | Except.error _ => Except.ok (original_entities, 0)
        | Except.ok polygons =>
          if polygons = [] then Except.ok (original_entities, 0)
          else
            let healed_entities := (sortByAreaDesc polygons).flatMap polyEntities
            if 0 < original_entities.length ∧
                (healed_entities.length : ℚ) < (original_entities.length : ℚ) * (5 / 10) then
              Except.ok (original_entities, 0)
            else Except.ok (healed_entities, gaps.length)

/-- One merged linestring as returned by shapely's `linemerge`: its
coordinate list and its `is_closed` flag. -/
abbrev MergedLine : Type := List Point × Bool

/-- The entities the source creates from one merged linestring: a closed
LWPOLYLINE when it is closed, otherwise one LINE per consecutive
coordinate pair. -/
def entitiesOfMerged (m : MergedLine) : List DxfEntity :=
  if m.2 then [DxfEntity.lwpolyline m.1 true]
  else (chords m.1).map fun s => DxfEntity.line s.1 s.2

/-- The converter `convert_segments_to_entities(segments, msp)` (lines
577-661).  The entity-collection loop sorts the modelspace into circles,
arcs, lines and closed polylines, where the polyline bucket accepts both a
closed LWPOLYLINE and a closed old-style POLYLINE.  `mergeOutcome` is the
outcome of the external `linemerge` call together with the entity
construction in the same `try` (a list of merged linestrings, a single
LineString being the one-element case); on success the result is the
copied circles followed by the entities of each merged linestring, and on
an exception the `except` at line 658 returns `circles + polylines`. -/
def convert_segments_to_entities (mergeOutcome : Except Unit (List MergedLine))
    (segments : List Seg) (msp : List DxfEntity) : List DxfEntity :=
  let circles := msp.filter fun e => match e with | DxfEntity.circle _ _ => true | _ => false
  let polylines := msp.filter fun e => match e with
    | DxfEntity.lwpolyline _ closed => closed
    | DxfEntity.polyline _ isClosed => isClosed
    | _ => false
  match mergeOutcome with
  | Except.error _ => circles ++ polylines
  | Except.ok merged => circles ++ merged.flatMap entitiesOfMerged

/-- The outer entry point `load_dxf_with_healing` (lines 519-575),
specialized to a successfully read file (a read failure re-raises and
returns nothing).  `msp` is the modelspace read from the file, `readBack`
the outcome of the healer's own re-read, `healEnabled` the value of
`self.heal_gaps`, `tol` the value of `self.gap_tolerance`.  When gaps are
found the healer's returned gap count is discarded (`healed_entities, _ =
self.heal_dxf_gaps(segments)`) and the outer detected count is returned;
errors escaping the healer are re-raised. -/
def load_dxf_with_healing (oracle : ShapelyOracle)
    (mergeOutcome : Except Unit (List MergedLine)) (cosd sind : ℚ → ℚ)
    (msp : List DxfEntity) (readBack : Option (List DxfEntity))
    (healEnabled : Bool) (tol : ℚ) : Except Unit (List DxfEntity × ℕ) :=
  let segments := extract_segments_from_dxf cosd sind msp
  if segments = [] then Except.ok ([], 0)
  else if healEnabled then
    let gaps := find_close_points (mkEndpoints segments) tol
    if 0 < gaps.length then
      match heal_dxf_gaps oracle readBack tol segments with
      | Except.error e => Except.error e
      | Except.ok healed => Except.ok (healed.1, gaps.length)
    else Except.ok (convert_segments_to_entities mergeOutcome segments msp, 0)
  else Except.ok (convert_segments_to_entities mergeOutcome segments msp, 0)

/-- Constant cosine instantiation used by concrete witnesses. -/
def cosd0 : ℚ → ℚ := fun _ => 1

/-- Constant sine instantiation used by concrete witnesses. -/
def sind0 : ℚ → ℚ := fun _ => 0

/-- Fixture: two segments whose nearest endpoints `(4,0)` and `(4,1)` are
distance 1 apart, a single gap under tolerance 2. -/
def segsFix : List Seg := [((0, 0), (4, 0)), ((4, 1), (4, 5))]

/-- Fixture: a modelspace of two LINE entities extracting to `segsFix`. -/
def mspFix : List DxfEntity := [DxfEntity.line (0, 0) (4, 0), DxfEntity.line (4, 1) (4, 5)]

/-- Fixture: a circle entity present in the original drawing. -/
def circFix : DxfEntity := DxfEntity.circle (9, 9) 1

/-- Fixture: a successful re-read containing one circle. -/
def readBackFix : Option (List DxfEntity) := some [circFix]

/-- Fixture: a successful re-read containing three circles. -/
def readBackFix3 : Option (List DxfEntity) :=
  some [circFix, DxfEntity.circle (8, 8) 1, DxfEntity.circle (7, 7) 1]

/-- Fixture: one polygon with no holes. -/
def polyFix : HPolygon := ⟨[(0, 0), (4, 0), (4, 5), (0, 0)], [], 10⟩

/-- Fixture oracle: geometry succeeds but polygonization finds no rings. -/
def oracleNoRings : ShapelyOracle :=
  ⟨fun _ _ => Except.ok (), fun _ _ => Except.ok []⟩

/-- Fixture oracle: the buffer/union/boundary step raises. -/
def oracleBufferRaises : ShapelyOracle :=
  ⟨fun _ _ => Except.error (), fun _ _ => Except.ok []⟩

/-- Fixture oracle: the polygonize step inside the try block raises. -/
def oraclePolyRaises : ShapelyOracle :=
  ⟨fun _ _ => Except.ok (), fun _ _ => Except.error ()⟩

/-- Fixture oracle: polygonization yields exactly `polyFix`. -/
def oracleOnePoly : ShapelyOracle :=
  ⟨fun _ _ => Except.ok (), fun _ _ => Except.ok [polyFix]⟩

/-- C8: for every user tolerance the healer's buffer distance is
`min(tolerance, 0.0005)` (`0.0005 = 1/2000`), hence never exceeds
`0.0005`; below the cap it equals the tolerance, above it the cap. -/
theorem C8_buffer_distance_cap (tol : ℚ) :
    buffer_distance tol = min tol (1 / 2000)
    ∧ buffer_distance tol ≤ 1 / 2000
    ∧ (tol ≤ 1 / 2000 → buffer_distance tol = tol)
    ∧ (1 / 2000 ≤ tol → buffer_distance tol = 1 / 2000) := by
  refine ⟨rfl, min_le_right _ _, fun h => min_eq_left h, fun h => min_eq_right h⟩

/-- Witness for C8 at tolerance 2: the buffer distance is capped at 1/2000. -/
theorem C8_buffer_distance_cap_witness :
    buffer_distance 2 ≤ 1 / 2000 ∧ buffer_distance 2 = 1 / 2000 :=
  ⟨(C8_buffer_distance_cap 2).2.1, (C8_buffer_distance_cap 2).2.2.2 (by norm_num)⟩

/-- C5: when healing reaches a nonempty polygon list but the healed entity
count is below half the preserved original entity count, `heal_dxf_gaps`
returns the preserved originals with gap count 0. -/
theorem C5_threshold_revert (oracle : ShapelyOracle) (readBack : Option (List DxfEntity))
    (tol : ℚ) (segments : List Seg) (u : Unit) (polygons : List HPolygon)
    (hseg : segments ≠ [])
    (hgaps : (find_close_points (mkEndpoints segments) tol).length ≠ 0)
    (hbuf : oracle.bufferUnionBoundary (buffer_distance tol) segments = Except.ok u)
    (hpoly : oracle.polygonsOf (buffer_distance tol) segments = Except.ok polygons)
    (hne : polygons ≠ [])
    (hthr : (((sortByAreaDesc polygons).flatMap polyEntities).length : ℚ) <
      ((preservedOriginals readBack).length : ℚ) * (5 / 10)) :
    heal_dxf_gaps oracle readBack tol segments =
      Except.ok (preservedOriginals readBack, 0) := by
  have horig : 0 < (preservedOriginals readBack).length := by
    rcases Nat.eq_zero_or_pos (preservedOriginals readBack).length with h0 | hpos
    · rw [h0] at hthr
      simp only [Nat.cast_zero, zero_mul] at hthr
      exact absurd hthr (not_lt.mpr (Nat.cast_nonneg _))
    · exact hpos
  simp only [heal_dxf_gaps, if_neg hseg, if_neg hgaps, hbuf, hpoly, if_neg hne,
    if_pos (And.intro horig hthr)]

/-- Witness for C5: three preserved circles collapse to one healed
polyline, so the healer reverts to the three circles with gap count 0. -/
theorem C5_threshold_revert_witness :
    heal_dxf_gaps oracleOnePoly readBackFix3 2 segsFix =
      Except.ok (preservedOriginals readBackFix3, 0) := by
  refine C5_threshold_revert oracleOnePoly readBackFix3 2 segsFix () [polyFix]
    (by simp [segsFix])
    (by norm_num [segsFix, mkEndpoints, find_close_points, gapCheck, sqDist, mkGapRecord,
      List.enum, List.enumFrom, List.filterMap_cons])
    rfl rfl (by norm_num)
    (by norm_num [sortByAreaDesc, insertByAreaDesc, polyEntities, polyFix,
      preservedOriginals, readBackFix3, circFix])

/-- C9: when the preservation re-read fails, the healer proceeds with an
empty preserved set; the no-gap return, the caught polygonize error and the
no-rings revert all return the empty list with gap count 0, and when
polygons do come back the 50 percent threshold never reverts (its guard
`len(original_entities) > 0` fails), so the healed entities are returned
with the detected gap count whatever their number. -/
theorem C9_read_failure_empty_preserved (oracle : ShapelyOracle) (tol : ℚ)
    (segments : List Seg) (u : Unit) (polygons : List HPolygon)
    (hseg : segments ≠ []) :
    preservedOriginals none = ([] : List DxfEntity)
    ∧ ((find_close_points (mkEndpoints segments) tol).length = 0 →
        heal_dxf_gaps oracle none tol segments = Except.ok ([], 0))
    ∧ ((find_close_points (mkEndpoints segments) tol).length ≠ 0 →
        oracle.bufferUnionBoundary (buffer_distance tol) segments = Except.ok u →
        (oracle.polygonsOf (buffer_distance tol) segments = Except.error () →
            heal_dxf_gaps oracle none tol segments = Except.ok ([], 0))
        ∧ (oracle.polygonsOf (buffer_distance tol) segments = Except.ok [] →
            heal_dxf_gaps oracle none tol segments = Except.ok ([], 0))
        ∧ (polygons ≠ [] →
            oracle.polygonsOf (buffer_distance tol) segments = Except.ok polygons →
            heal_dxf_gaps oracle none tol segments =
              Except.ok ((sortByAreaDesc polygons).flatMap polyEntities,
                (find_close_points (mkEndpoints segments) tol).length))) := by
  refine ⟨rfl, ?_, ?_⟩
  · intro hg
    simp [heal_dxf_gaps, if_neg hseg, hg, preservedOriginals]
  · intro hg hbuf
    refine ⟨?_, ?_, ?_⟩
    · intro hp
      simp [heal_dxf_gaps, if_neg hseg, if_neg hg, hbuf, hp, preservedOriginals]
    · intro hp
      simp [heal_dxf_gaps, if_neg hseg, if_neg hg, hbuf, hp, preservedOriginals]
    · intro hne hp
      have hcond : ¬(0 < (preservedOriginals none).length ∧
          (((sortByAreaDesc polygons).flatMap polyEntities).length : ℚ) <
            ((preservedOriginals none).length : ℚ) * (5 / 10)) := by
        intro hc
        exact absurd hc.1 (by simp [preservedOriginals])
      simp only [heal_dxf_gaps, if_neg hseg, if_neg hg, hbuf, hp, if_neg hne, if_neg hcond]

/-- Witness for C9: with a failed re-read and one returned polygon the
healer reports the healed polyline and the detected gap count 1, the
threshold check being skipped. -/
theorem C9_read_failure_empty_preserved_witness :
    heal_dxf_gaps oracleOnePoly none 2 segsFix =
      Except.ok ((sortByAreaDesc [polyFix]).flatMap polyEntities,
        (find_close_points (mkEndpoints segsFix) 2).length) :=
  ((C9_read_failure_empty_preserved oracleOnePoly 2 segsFix () [polyFix]
      (by simp [segsFix])).2.2
    (by norm_num [segsFix, mkEndpoints, find_close_points, gapCheck, sqDist, mkGapRecord,
      List.enum, List.enumFrom, List.filterMap_cons])
    rfl).2.2 (by simp) rfl

/-- C3 counterexample: with gaps detected, an exception in the
buffer/union/boundary step (which the source runs before entering its
`try` block) escapes `heal_dxf_gaps` instead of being treated as "no
rings", refuting the claim that no exception propagates to the caller. -/
theorem C3_counterexample :
    heal_dxf_gaps oracleBufferRaises readBackFix 2 segsFix = Except.error () := by
  have hseg : segsFix ≠ [] := by simp [segsFix]
  have hg1 : (find_close_points (mkEndpoints segsFix) 2).length = 1 := by
    norm_num [segsFix, mkEndpoints, find_close_points, gapCheck, sqDist, mkGapRecord,
      List.enum, List.enumFrom, List.filterMap_cons]
  simp [heal_dxf_gaps, if_neg hseg, hg1, oracleBufferRaises]

/-- C3 amended: only a geometry error of the polygonize/entity-creation
step (the part inside the source's `try`) is caught and treated as "no
rings", reverting to the preserved originals with gap count 0; an error
of the buffer/union/boundary step propagates out of the Gap Healer. -/
theorem C3_amended_error_handling (oracle : ShapelyOracle)
    (readBack : Option (List DxfEntity)) (tol : ℚ) (segments : List Seg)
    (hseg : segments ≠ [])
    (hgaps : (find_close_points (mkEndpoints segments) tol).length ≠ 0) :
    (∀ u : Unit, oracle.bufferUnionBoundary (buffer_distance tol) segments = Except.ok u →
      oracle.polygonsOf (buffer_distance tol) segments = Except.error () →
      heal_dxf_gaps oracle readBack tol segments =
        Except.ok (preservedOriginals readBack, 0))
    ∧ (oracle.bufferUnionBoundary (buffer_distance tol) segments = Except.error () →
      heal_dxf_gaps oracle readBack tol segments = Except.error ()) := by
  constructor
  · intro u hbuf hp
    simp only [heal_dxf_gaps, if_neg hseg, if_neg hgaps, hbuf, hp]
  · intro hbuf
    simp only [heal_dxf_gaps, if_neg hseg, if_neg hgaps, hbuf]

/-- Witness for the amended C3: a polygonize exception is absorbed and the
preserved originals come back with gap count 0. -/
theorem C3_amended_error_handling_witness :
    heal_dxf_gaps oraclePolyRaises readBackFix 2 segsFix =
      Except.ok (preservedOriginals readBackFix, 0) :=
  (C3_amended_error_handling oraclePolyRaises readBackFix 2 segsFix
    (by simp [segsFix])
    (by norm_num [segsFix, mkEndpoints, find_close_points, gapCheck, sqDist, mkGapRecord,
      List.enum, List.enumFrom, List.filterMap_cons])).1 () rfl rfl

/-- C1 counterexample: two lines with a single detected gap, a healer that
finds no rings and so reverts to the preserved original (one circle); the
outer `load_dxf_with_healing` returns that preserved original together
with gap count 1, not 0 — the claim predicts `gapCount = 0` here. -/
theorem C1_counterexample :
    load_dxf_with_healing oracleNoRings (Except.ok []) cosd0 sind0 mspFix readBackFix
        true 2 = Except.ok ([circFix], 1)
    ∧ (1 : ℕ) ≠ 0 := by
  have hseg : segsFix ≠ [] := by simp [segsFix]
  have hex : extract_segments_from_dxf cosd0 sind0 mspFix = segsFix := rfl
  have hg1 : (find_close_points (mkEndpoints segsFix) 2).length = 1 := by
    norm_num [segsFix, mkEndpoints, find_close_points, gapCheck, sqDist, mkGapRecord,
      List.enum, List.enumFrom, List.filterMap_cons]
  have hheal : heal_dxf_gaps oracleNoRings readBackFix 2 segsFix =
      Except.ok ([circFix], 0) := by
    simp [heal_dxf_gaps, if_neg hseg, hg1, oracleNoRings, preservedOriginals,
      readBackFix, circFix]
  constructor
  · simp [load_dxf_with_healing, hex, if_neg hseg, hg1, hheal]
  · decide

/-- C1 amended: whenever gaps are detected and the healer reverts (no
closed rings, a caught polygonize error, or an under-threshold result),
`load_dxf_with_healing` returns the preserved original entities together
with the positive detected gap count; the healer's internal count 0 is
discarded by `healed_entities, _ = self.heal_dxf_gaps(segments)`, so the
reported `gapCount` is not 0. -/
theorem C1_amended_revert_reports_detected_count (oracle : ShapelyOracle)
    (mergeOutcome : Except Unit (List MergedLine)) (cosd sind : ℚ → ℚ)
    (msp : List DxfEntity) (readBack : Option (List DxfEntity)) (tol : ℚ)
    (segments : List Seg)
    (hex : extract_segments_from_dxf cosd sind msp = segments)
    (hseg : segments ≠ [])
    (hgaps : (find_close_points (mkEndpoints segments) tol).length ≠ 0)
    (hbuf : oracle.bufferUnionBoundary (buffer_distance tol) segments = Except.ok ())
    (hrevert : oracle.polygonsOf (buffer_distance tol) segments = Except.error ()
      ∨ oracle.polygonsOf (buffer_distance tol) segments = Except.ok []
      ∨ ∃ polygons, polygons ≠ [] ∧
          oracle.polygonsOf (buffer_distance tol) segments = Except.ok polygons ∧
          (((sortByAreaDesc polygons).flatMap polyEntities).length : ℚ) <
            ((preservedOriginals readBack).length : ℚ) * (5 / 10)) :
    load_dxf_with_healing oracle mergeOutcome cosd sind msp readBack true tol =
      Except.ok (preservedOriginals readBack,
        (find_close_points (mkEndpoints segments) tol).length)
    ∧ (find_close_points (mkEndpoints segments) tol).length ≠ 0 := by
  have hheal : heal_dxf_gaps oracle readBack tol segments =
      Except.ok (preservedOriginals readBack, 0) := by
    rcases hrevert with hp | hp | ⟨polygons, hne, hp, hthr⟩
    · simp only [heal_dxf_gaps, if_neg hseg, if_neg hgaps, hbuf, hp]
    · simp [heal_dxf_gaps, if_neg hseg, if_neg hgaps, hbuf, hp]
    · have horig : 0 < (preservedOriginals readBack).length := by
        rcases Nat.eq_zero_or_pos (preservedOriginals readBack).length with h0 | hpos
        · rw [h0] at hthr
          simp only [Nat.cast_zero, zero_mul] at hthr
          exact absurd hthr (not_lt.mpr (Nat.cast_nonneg _))
        · exact hpos
      simp only [heal_dxf_gaps, if_neg hseg, if_neg hgaps, hbuf, hp, if_neg hne,
        if_pos (And.intro horig hthr)]
  have hpos : 0 < (find_close_points (mkEndpoints segments) tol).length :=
    Nat.pos_of_ne_zero hgaps
  refine ⟨?_, hgaps⟩
  simp [load_dxf_with_healing, hex, if_neg hseg, hpos, hheal]

/-- Witness for the amended C1 at the two-line fixture: one preserved
circle and gap count 1 come back from the outer call. -/
theorem C1_amended_revert_reports_detected_count_witness :
    load_dxf_with_healing oracleNoRings (Except.ok []) cosd0 sind0 mspFix readBackFix
        true 2 =
      Except.ok (preservedOriginals readBackFix,
        (find_close_points (mkEndpoints segsFix) 2).length)
    ∧ (find_close_points (mkEndpoints segsFix) 2).length ≠ 0 :=
  C1_amended_revert_reports_detected_count oracleNoRings (Except.ok []) cosd0 sind0
    mspFix readBackFix 2 segsFix rfl (by simp [segsFix])
    (by norm_num [segsFix, mkEndpoints, find_close_points, gapCheck, sqDist, mkGapRecord,
      List.enum, List.enumFrom, List.filterMap_cons])
    rfl (Or.inr (Or.inl rfl))

/-- C2 counterexample: the healer succeeds (one polygon, threshold passed)
while the original drawing holds a circle; the returned entity set is the
single healed polyline and does not contain the circle, refuting the
claimed verbatim copying of Circle entities on success. -/
theorem C2_counterexample :
    heal_dxf_gaps oracleOnePoly readBackFix 2 segsFix =
      Except.ok ([DxfEntity.lwpolyline polyFix.exterior true], 1)
    ∧ circFix ∈ preservedOriginals readBackFix
    ∧ circFix ∉ [DxfEntity.lwpolyline polyFix.exterior true] := by
  have hseg : segsFix ≠ [] := by simp [segsFix]
  have hg1 : (find_close_points (mkEndpoints segsFix) 2).length = 1 := by
    norm_num [segsFix, mkEndpoints, find_close_points, gapCheck, sqDist, mkGapRecord,
      List.enum, List.enumFrom, List.filterMap_cons]
  refine ⟨?_, ?_, ?_⟩
  · norm_num [heal_dxf_gaps, if_neg hseg, hg1, oracleOnePoly, preservedOriginals,
      readBackFix, circFix, sortByAreaDesc, insertByAreaDesc, polyEntities, polyFix]
  · simp [preservedOriginals, readBackFix, circFix]
  · simp [circFix, polyFix]

/-- C2 amended: when the healer succeeds, the returned entity set is
exactly one closed polyline per exterior ring and one per hole ring of the
area-sorted polygons, with the true detected gap count; every returned
entity is a closed LWPOLYLINE, so original Circle entities are not copied
into it. -/
theorem C2_amended_success_set (oracle : ShapelyOracle)
    (readBack : Option (List DxfEntity)) (tol : ℚ) (segments : List Seg) (u : Unit)
    (polygons : List HPolygon)
    (hseg : segments ≠ [])
    (hgaps : (find_close_points (mkEndpoints segments) tol).length ≠ 0)
    (hbuf : oracle.bufferUnionBoundary (buffer_distance tol) segments = Except.ok u)
    (hpoly : oracle.polygonsOf (buffer_distance tol) segments = Except.ok polygons)
    (hne : polygons ≠ [])
    (hthr : ¬(0 < (preservedOriginals readBack).length ∧
      (((sortByAreaDesc polygons).flatMap polyEntities).length : ℚ) <
        ((preservedOriginals readBack).length : ℚ) * (5 / 10))) :
    heal_dxf_gaps oracle readBack tol segments =
      Except.ok ((sortByAreaDesc polygons).flatMap polyEntities,
        (find_close_points (mkEndpoints segments) tol).length)
    ∧ ∀ e ∈ (sortByAreaDesc polygons).flatMap polyEntities,
        ∃ coords, e = DxfEntity.lwpolyline coords true := by
  constructor
  · simp only [heal_dxf_gaps, if_neg hseg, if_neg hgaps, hbuf, hpoly, if_neg hne,
      if_neg hthr]
  · intro e he
    rw [List.mem_flatMap] at he
    obtain ⟨p, _, hp⟩ := he
    simp only [polyEntities, List.mem_cons, List.mem_map] at hp
    rcases hp with h | ⟨r, _, h⟩
    · exact ⟨p.exterior, h⟩
    · exact ⟨r, h.symm⟩

/-- Witness for the amended C2: the single-polygon fixture yields the one
healed polyline with gap count 1. -/
theorem C2_amended_success_set_witness :
    heal_dxf_gaps oracleOnePoly readBackFix 2 segsFix =
      Except.ok ((sortByAreaDesc [polyFix]).flatMap polyEntities,
        (find_close_points (mkEndpoints segsFix) 2).length) :=
  (C2_amended_success_set oracleOnePoly readBackFix 2 segsFix () [polyFix]
    (by simp [segsFix])
    (by norm_num [segsFix, mkEndpoints, find_close_points, gapCheck, sqDist, mkGapRecord,
      List.enum, List.enumFrom, List.filterMap_cons])
    rfl rfl (by simp)
    (by norm_num [sortByAreaDesc, insertByAreaDesc, polyEntities, polyFix,
      preservedOriginals, readBackFix, circFix])).1

/-- C4 counterexample: a closed LWPOLYLINE whose first and last stored
points coincide.  The claim predicts no extra closing segment (2 segments
from the 3 stored points); the source appends `points[0]` unconditionally
when the closed flag is set and so emits 3 segments, the last one
degenerate. -/
theorem C4_counterexample :
    extractEntity cosd0 sind0 (DxfEntity.lwpolyline [(0, 0), (4, 0), (0, 0)] true) =
      [((0, 0), (4, 0)), ((4, 0), (0, 0)), ((0, 0), (0, 0))]
    ∧ (extractEntity cosd0 sind0
        (DxfEntity.lwpolyline [(0, 0), (4, 0), (0, 0)] true)).length ≠ 2 := by
  constructor
  · rfl
  · simp [extractEntity, chords]

/-- C4 amended: extraction of a closed LWPOLYLINE with at least two points
emits one segment per consecutive stored point pair and always appends one
extra closing segment back to the first stored point, whether or not the
first and last stored points differ (when they coincide the closing
segment is degenerate): the result has exactly as many segments as stored
points, its i-th segment joins points i and i+1, and its last segment runs
from the last stored point to the first. -/
theorem C4_amended_closed_polyline (cosd sind : ℚ → ℚ) (pts : List Point)
    (hlen : 2 ≤ pts.length) :
    (extractEntity cosd sind (DxfEntity.lwpolyline pts true)).length = pts.length
    ∧ (∀ i, ∀ hi : i + 1 < pts.length,
        (extractEntity cosd sind (DxfEntity.lwpolyline pts true))[i]? =
          some (pts[i], pts[i + 1]))
    ∧ (∃ p, pts.getLast? = some p ∧
        (extractEntity cosd sind (DxfEntity.lwpolyline pts true)).getLast? =
          some (p, pts.headI)) := by
  have hx : extractEntity cosd sind (DxfEntity.lwpolyline pts true) =
      chords (pts ++ [pts.headI]) := by
    simp [extractEntity, if_pos (by omega : 1 < pts.length)]
  have hlapp : (pts ++ [pts.headI]).length = pts.length + 1 := by
    simp
  have hclen : (chords (pts ++ [pts.headI])).length = pts.length := by
    rw [chords_length, hlapp]
    omega
  refine ⟨by rw [hx, hclen], ?_, ?_⟩
  · intro i hi
    rw [hx, List.getElem?_eq_getElem
      (show i < (chords (pts ++ [pts.headI])).length by rw [hclen]; omega)]
    rw [chords_getElem (pts ++ [pts.headI]) i
      (show i < (chords (pts ++ [pts.headI])).length by rw [hclen]; omega)
      (show i + 1 < (pts ++ [pts.headI]).length by rw [hlapp]; omega)]
    rw [List.getElem_append_left (show i < pts.length by omega),
      List.getElem_append_left (show i + 1 < pts.length by omega)]
  · refine ⟨pts[pts.length - 1], ?_, ?_⟩
    · rw [List.getLast?_eq_getElem?,
        List.getElem?_eq_getElem (show pts.length - 1 < pts.length by omega)]
    · rw [hx, List.getLast?_eq_getElem?,
        show (chords (pts ++ [pts.headI])).length - 1 = pts.length - 1 by rw [hclen]]
      rw [List.getElem?_eq_getElem
        (show pts.length - 1 < (chords (pts ++ [pts.headI])).length by rw [hclen]; omega)]
      rw [chords_getElem (pts ++ [pts.headI]) (pts.length - 1)
        (show pts.length - 1 < (chords (pts ++ [pts.headI])).length by rw [hclen]; omega)
        (show pts.length - 1 + 1 < (pts ++ [pts.headI]).length by rw [hlapp]; omega)]
      rw [List.getElem_append_left (show pts.length - 1 < pts.length by omega)]
      rw [List.getElem_append_right (show pts.length ≤ pts.length - 1 + 1 by omega)]
      simp [show pts.length - 1 + 1 - pts.length = 0 by omega]

/-- Witness for the amended C4: four stored points with distinct first and
last points give four segments, closing back to the first point. -/
theorem C4_amended_closed_polyline_witness :
    (extractEntity cosd0 sind0
      (DxfEntity.lwpolyline [(0, 0), (4, 0), (4, 4), (0, 4)] true)).length = 4 :=
  (C4_amended_closed_polyline cosd0 sind0 [(0, 0), (4, 0), (4, 4), (0, 4)]
    (by simp)).1

theorem samplePoint_on_circle (cosd sind : ℚ → ℚ) (c : Point) (r : ℚ)
    (hpyth : ∀ θ : ℚ, cosd θ * cosd θ + sind θ * sind θ = 1) (θ : ℚ) :
    sqDist (samplePoint cosd sind c r θ) c = r * r := by
  have h := hpyth θ
  simp only [sqDist, samplePoint]
  linear_combination (r * r) * h

theorem headI_map_range (f : ℕ → Point) (n : ℕ) :
    ((List.range (n + 1)).map f).headI = f 0 := by
  rw [List.range_succ_eq_map]
  simp

theorem arcPts_length (cosd sind : ℚ → ℚ) (c : Point) (r sa ea : ℚ) :
    (arcPts cosd sind c r sa ea).length = 25 := by
  simp [arcPts]

theorem arcPts_getElem (cosd sind : ℚ → ℚ) (c : Point) (r sa ea : ℚ) (i : ℕ)
    (h : i < (arcPts cosd sind c r sa ea).length) :
    (arcPts cosd sind c r sa ea)[i] =
      samplePoint cosd sind c r (sa + (i : ℚ) * ((normEnd sa ea - sa) / 24)) := by
  simp [arcPts]

theorem circlePts_length (cosd sind : ℚ → ℚ) (c : Point) (r : ℚ) :
    (circlePts cosd sind c r).length = 36 := by
  simp [circlePts]

theorem circlePts_getElem (cosd sind : ℚ → ℚ) (c : Point) (r : ℚ) (i : ℕ)
    (h : i < (circlePts cosd sind c r).length) :
    (circlePts cosd sind c r)[i] = samplePoint cosd sind c r ((i : ℚ) * (360 / 36)) := by
  simp [circlePts]

theorem circlePts_headI (cosd sind : ℚ → ℚ) (c : Point) (r : ℚ) :
    (circlePts cosd sind c r).headI = samplePoint cosd sind c r 0 := by
  have h := headI_map_range
    (fun i : ℕ => samplePoint cosd sind c r ((i : ℚ) * (360 / 36))) 35
  simpa [circlePts] using h

theorem circlePts_mem_on_circle (cosd sind : ℚ → ℚ) (c : Point) (r : ℚ)
    (hpyth : ∀ θ : ℚ, cosd θ * cosd θ + sind θ * sind θ = 1) (x : Point)
    (hx : x ∈ circlePts cosd sind c r ++ [(circlePts cosd sind c r).headI]) :
    sqDist x c = r * r := by
  rcases List.mem_append.mp hx with hx | hx
  · simp only [circlePts] at hx
    obtain ⟨j, _, hj⟩ := List.mem_map.mp hx
    rw [← hj]
    exact samplePoint_on_circle cosd sind c r hpyth _
  · rw [List.mem_singleton.mp hx, circlePts_headI]
    exact samplePoint_on_circle cosd sind c r hpyth _

/-- C6: arc extraction normalizes the end angle by adding 360 degrees
exactly when `end_angle < start_angle`, samples 25 points at equal steps
of the normalized sweep inclusive of both endpoints, and yields exactly 24
chords, the i-th joining the samples at steps i and i+1; circle extraction
samples 36 points starting at angle 0 in steps of 10 degrees, appends the
first sample again, and yields exactly 36 chords whose endpoints all lie
on the circle (assuming the sine/cosine satisfy the Pythagorean
identity). -/
theorem C6_arc_circle_tessellation (cosd sind : ℚ → ℚ) (c : Point) (r sa ea : ℚ)
    (hpyth : ∀ θ : ℚ, cosd θ * cosd θ + sind θ * sind θ = 1) :
    (ea < sa → normEnd sa ea = ea + 360)
    ∧ (sa ≤ ea → normEnd sa ea = ea)
    ∧ (extractEntity cosd sind (DxfEntity.arc c r sa ea)).length = 24
    ∧ (∀ i : ℕ, i < 24 →
        (extractEntity cosd sind (DxfEntity.arc c r sa ea))[i]? =
          some (samplePoint cosd sind c r (sa + (i : ℚ) * ((normEnd sa ea - sa) / 24)),
            samplePoint cosd sind c r (sa + ((i : ℚ) + 1) * ((normEnd sa ea - sa) / 24))))
    ∧ (extractEntity cosd sind (DxfEntity.circle c r)).length = 36
    ∧ (∀ i : ℕ, i + 1 < 36 →
        (extractEntity cosd sind (DxfEntity.circle c r))[i]? =
          some (samplePoint cosd sind c r ((i : ℚ) * 10),
            samplePoint cosd sind c r (((i : ℚ) + 1) * 10)))
    ∧ (extractEntity cosd sind (DxfEntity.circle c r))[35]? =
        some (samplePoint cosd sind c r ((35 : ℚ) * 10), samplePoint cosd sind c r 0)
    ∧ (∀ s ∈ extractEntity cosd sind (DxfEntity.circle c r),
        sqDist s.1 c = r * r ∧ sqDist s.2 c = r * r) := by
  have harc : extractEntity cosd sind (DxfEntity.arc c r sa ea) =
      chords (arcPts cosd sind c r sa ea) := rfl
  have hcirc : extractEntity cosd sind (DxfEntity.circle c r) =
      chords (circlePts cosd sind c r ++ [(circlePts cosd sind c r).headI]) := rfl
  have happlen : (circlePts cosd sind c r ++ [(circlePts cosd sind c r).headI]).length
      = 37 := by
    simp [circlePts_length]
  have hclen : (extractEntity cosd sind (DxfEntity.circle c r)).length = 36 := by
    rw [hcirc, chords_length, happlen]
  refine ⟨fun h => if_pos h, fun h => if_neg (not_lt.mpr h), ?_, ?_, hclen, ?_, ?_, ?_⟩
  · rw [harc, chords_length, arcPts_length]
  · intro i hi
    rw [harc]
    rw [List.getElem?_eq_getElem (show i < (chords (arcPts cosd sind c r sa ea)).length by
      rw [chords_length, arcPts_length]; omega)]
    rw [chords_getElem (arcPts cosd sind c r sa ea) i
      (by rw [chords_length, arcPts_length]; omega)
      (show i + 1 < (arcPts cosd sind c r sa ea).length by rw [arcPts_length]; omega)]
    rw [arcPts_getElem cosd sind c r sa ea i (by rw [arcPts_length]; omega),
      arcPts_getElem cosd sind c r sa ea (i + 1) (by rw [arcPts_length]; omega)]
    push_cast
    rfl
  · intro i hi
    rw [hcirc]
    rw [List.getElem?_eq_getElem (show i < (chords (circlePts cosd sind c r ++
        [(circlePts cosd sind c r).headI])).length by rw [chords_length, happlen]; omega)]
    rw [chords_getElem (circlePts cosd sind c r ++ [(circlePts cosd sind c r).headI]) i
      (by rw [chords_length, happlen]; omega)
      (show i + 1 < (circlePts cosd sind c r ++
        [(circlePts cosd sind c r).headI]).length by rw [happlen]; omega)]
    rw [List.getElem_append_left
        (show i < (circlePts cosd sind c r).length by rw [circlePts_length]; omega),
      List.getElem_append_left
        (show i + 1 < (circlePts cosd sind c r).length by rw [circlePts_length]; omega)]
    rw [circlePts_getElem cosd sind c r i (by rw [circlePts_length]; omega),
      circlePts_getElem cosd sind c r (i + 1) (by rw [circlePts_length]; omega)]
    push_cast
    norm_num
  · rw [hcirc]
    rw [List.getElem?_eq_getElem (show 35 < (chords (circlePts cosd sind c r ++
        [(circlePts cosd sind c r).headI])).length by rw [chords_length, happlen]; omega)]
    rw [chords_getElem (circlePts cosd sind c r ++ [(circlePts cosd sind c r).headI]) 35
      (by rw [chords_length, happlen]; omega)
      (show 35 + 1 < (circlePts cosd sind c r ++
        [(circlePts cosd sind c r).headI]).length by rw [happlen]; omega)]
    rw [List.getElem_append_left
      (show 35 < (circlePts cosd sind c r).length by rw [circlePts_length]; omega)]
    rw [List.getElem_append_right
      (show (circlePts cosd sind c r).length ≤ 35 + 1 by rw [circlePts_length])]
    rw [circlePts_getElem cosd sind c r 35 (by rw [circlePts_length]; omega)]
    simp only [circlePts_length, circlePts_headI]
    norm_num
  · intro s hs
    rw [hcirc] at hs
    have hmem := chords_mem _ s hs
    exact ⟨circlePts_mem_on_circle cosd sind c r hpyth s.1 hmem.1,
      circlePts_mem_on_circle cosd sind c r hpyth s.2 hmem.2⟩

/-- Witness for C6 with exact constant trig functions: 24 arc chords and
36 circle chords at a unit circle. -/
theorem C6_arc_circle_tessellation_witness :
    (extractEntity cosd0 sind0 (DxfEntity.arc (0, 0) 1 0 90)).length = 24
    ∧ (extractEntity cosd0 sind0 (DxfEntity.circle (0, 0) 1)).length = 36 := by
  have h := C6_arc_circle_tessellation cosd0 sind0 (0, 0) 1 0 90
    (fun θ => by norm_num [cosd0, sind0])
  exact ⟨h.2.2.1, h.2.2.2.2.1⟩

theorem gapCheck_eq_some_iff (tol : ℚ) (p q : EndpointRec) (r : GapRecord) :
    gapCheck tol p q = some r ↔
      p.seg ≠ q.seg ∧ 0 < sqDist p.pt q.pt ∧ 0 < tol ∧ sqDist p.pt q.pt < tol * tol ∧
        r = mkGapRecord p q := by
  unfold gapCheck
  by_cases h1 : p.seg ≠ q.seg
  · rw [if_pos h1]
    by_cases h2 : 0 < sqDist p.pt q.pt ∧ 0 < tol ∧ sqDist p.pt q.pt < tol * tol
    · rw [if_pos h2]
      simp only [Option.some.injEq]
      constructor
      · intro h
        exact ⟨h1, h2.1, h2.2.1, h2.2.2, h.symm⟩
      · intro h
        exact h.2.2.2.2.symm
    · rw [if_neg h2]
      constructor
      · intro h
        exact absurd h (by simp)
      · intro h
        exact absurd ⟨h.2.1, h.2.2.1, h.2.2.2.1⟩ h2
  · rw [if_neg h1]
    constructor
    · intro h
      exact absurd h (by simp)
    · intro h
      exact absurd h.1 h1

theorem find_close_points_sound (tol : ℚ) (points : List EndpointRec) :
    ∀ r ∈ find_close_points points tol,
      ∃ p q, List.Sublist [p, q] points ∧ r = mkGapRecord p q ∧ p.seg ≠ q.seg ∧
        0 < sqDist p.pt q.pt ∧ sqDist p.pt q.pt < tol * tol := by
  induction points with
  | nil =>
    intro r hr
    simp [find_close_points] at hr
  | cons a rest ih =>
    intro r hr
    rw [find_close_points] at hr
    rcases List.mem_append.mp hr with h | h
    · obtain ⟨q, hq, hgc⟩ := List.mem_filterMap.mp h
      obtain ⟨h1, h2, _, h4, h5⟩ := (gapCheck_eq_some_iff tol a q r).mp hgc
      exact ⟨a, q, List.Sublist.cons₂ a (List.singleton_sublist.mpr hq), h5, h1, h2, h4⟩
    · obtain ⟨p, q, hsub, hrest⟩ := ih r h
      exact ⟨p, q, List.Sublist.cons a hsub, hrest⟩

theorem find_close_points_complete (tol : ℚ) (htol : 0 < tol)
    (points : List EndpointRec) :
    ∀ p q, List.Sublist [p, q] points → p.seg ≠ q.seg → 0 < sqDist p.pt q.pt →
      sqDist p.pt q.pt < tol * tol →
      mkGapRecord p q ∈ find_close_points points tol := by
  induction points with
  | nil =>
    intro p q hsub
    simp at hsub
  | cons a rest ih =>
    intro p q hsub hne hd hlt
    rw [find_close_points]
    cases hsub with
    | cons _ h =>
      exact List.mem_append_right _ (ih p q h hne hd hlt)
    | cons₂ _ h =>
      refine List.mem_append_left _ ?_
      exact List.mem_filterMap.mpr ⟨q, List.singleton_sublist.mp h,
        (gapCheck_eq_some_iff tol a q _).mpr ⟨hne, hd, htol, hlt, rfl⟩⟩

/-- C7: for a positive tolerance, `find_close_points` reports exactly the
ordered pairs of endpoint records taken at distinct list positions whose
segment indices differ and whose squared distance `d2` satisfies
`0 < d2 < tol^2` — i.e. whose Euclidean distance `d = sqrt d2` satisfies
`0 < d < tol`.  Soundness: every reported record arises from such a pair
(so records of a common segment are never compared and coincident
endpoints are never reported); completeness: every such pair is
reported. -/
theorem C7_find_close_points_exact (points : List EndpointRec) (tol : ℚ)
    (htol : 0 < tol) :
    (∀ r ∈ find_close_points points tol,
      ∃ p q, List.Sublist [p, q] points ∧ r = mkGapRecord p q ∧ p.seg ≠ q.seg ∧
        0 < sqDist p.pt q.pt ∧ sqDist p.pt q.pt < tol * tol)
    ∧ (∀ p q, List.Sublist [p, q] points → p.seg ≠ q.seg → 0 < sqDist p.pt q.pt →
        sqDist p.pt q.pt < tol * tol →
        mkGapRecord p q ∈ find_close_points points tol) :=
  ⟨find_close_points_sound tol points, find_close_points_complete tol htol points⟩

/-- Witness for C7: in the two-segment fixture, the pair of nearest
endpoints of distinct segments at distance 1 under tolerance 2 is
reported. -/
theorem C7_find_close_points_exact_witness :
    mkGapRecord ⟨(4, 0), 0, EndTag.stop⟩ ⟨(4, 1), 1, EndTag.start⟩ ∈
      find_close_points (mkEndpoints segsFix) 2 := by
  have hm : mkEndpoints segsFix =
      ⟨(0, 0), 0, EndTag.start⟩ :: ⟨(4, 0), 0, EndTag.stop⟩ ::
        ⟨(4, 1), 1, EndTag.start⟩ :: [(⟨(4, 5), 1, EndTag.stop⟩ : EndpointRec)] := rfl
  have hsub : List.Sublist
      [(⟨(4, 0), 0, EndTag.stop⟩ : EndpointRec), ⟨(4, 1), 1, EndTag.start⟩]
      (mkEndpoints segsFix) := by
    rw [hm]
    exact List.Sublist.cons _
      (List.Sublist.cons₂ _ (List.Sublist.cons₂ _ (List.nil_sublist _)))
  exact (C7_find_close_points_exact (mkEndpoints segsFix) 2 (by norm_num)).2
    ⟨(4, 0), 0, EndTag.stop⟩ ⟨(4, 1), 1, EndTag.start⟩ hsub (by simp)
    (by norm_num [sqDist]) (by norm_num [sqDist])

/-- C10: extraction yields segments only for LINE, ARC, CIRCLE and
LWPOLYLINE entities; an old-style POLYLINE contributes no segments even
when closed; yet the entity-collection step of
`convert_segments_to_entities` does recognize a closed POLYLINE, which
therefore appears in its merge-failure fallback output. -/
theorem C10_recognized_entity_types (cosd sind : ℚ → ℚ) :
    (∀ e : DxfEntity, extractEntity cosd sind e ≠ [] →
      (∃ p q, e = DxfEntity.line p q) ∨ (∃ c r sa ea, e = DxfEntity.arc c r sa ea)
      ∨ (∃ c r, e = DxfEntity.circle c r) ∨ (∃ pts b, e = DxfEntity.lwpolyline pts b))
    ∧ (∀ pts isClosed, extractEntity cosd sind (DxfEntity.polyline pts isClosed) = [])
    ∧ (∀ msp segments pts, DxfEntity.polyline pts true ∈ msp →
        DxfEntity.polyline pts true ∈
          convert_segments_to_entities (Except.error ()) segments msp) := by
  refine ⟨?_, fun pts b => rfl, ?_⟩
  · intro e he
    cases e with
    | line p q => exact Or.inl ⟨p, q, rfl⟩
    | arc c r sa ea => exact Or.inr (Or.inl ⟨c, r, sa, ea, rfl⟩)
    | circle c r => exact Or.inr (Or.inr (Or.inl ⟨c, r, rfl⟩))
    | lwpolyline pts b => exact Or.inr (Or.inr (Or.inr ⟨pts, b, rfl⟩))
    | polyline pts b => exact absurd rfl he
    | other => exact absurd rfl he
  · intro msp segments pts hmem
    simp only [convert_segments_to_entities]
    refine List.mem_append_right _ ?_
    rw [List.mem_filter]
    exact ⟨hmem, rfl⟩

/-- Witness for C10: a closed old-style POLYLINE survives into the
fallback output of the converter. -/
theorem C10_recognized_entity_types_witness :
    DxfEntity.polyline [(0, 0), (4, 0)] true ∈
      convert_segments_to_entities (Except.error ()) []
        [DxfEntity.polyline [(0, 0), (4, 0)] true] :=
  (C10_recognized_entity_types cosd0 sind0).2.2
    [DxfEntity.polyline [(0, 0), (4, 0)] true] [] [(0, 0), (4, 0)] (by simp)

end KicadDxf
